import Mathlib

/-
Formal model of the OCR-to-spreadsheet fill pipeline implemented in
`main.py` and `safety.py` (the `upload` route).  The pipeline stages are:

  1. prompt selection from the template name (substring tests);
  2. isolation of a JSON array from the model response with the Python
     regex  \[\s*{.*?}\s*\]  under re.DOTALL (re.search semantics:
     leftmost start, lazy body);
  3. `pd.read_json` over the isolated text: parse a JSON array of flat
     records into a DataFrame (column union in first-seen key order,
     missing keys become NaN, then per-column dtype inference which
     converts all-float-parseable columns to numbers);
  4. copying the template workbook and writing headers (row 2) and data
     rows (row 3 onward) with openpyxl, skipping MergedCell instances.

Machine floats are modelled exactly: finite float64 values as
rationals, plus explicit NaN and signed-infinity cell values; Python
float parsing covers numeric literals with underscore separators and
the case-insensitive literals nan/inf/infinity.  Unicode digits,
Unicode-only whitespace and Unicode case mapping beyond ASCII are not
modelled.
-/

set_option maxHeartbeats 1000000

namespace ExcelFill

/-- ASCII whitespace, the characters matched by the regex class `\s`
and stripped by Python `float` parsing (Unicode-only whitespace is not
modelled). -/
def isWsChar (c : Char) : Bool :=
  c == ' ' || c == '\t' || c == '\n' || c == '\r' || c == '\x0b' || c == '\x0c'

/-- Tail of the isolation regex after the closing brace: `\s*\]`.
Returns the number of characters consumed (whitespace plus the `]`),
or `none` when a non-whitespace character other than `]` (or the end of
the text) is reached first. -/
def closeBr : List Char → Option Nat
  | [] => none
  | c :: cs =>
    if c == ']' then some 1
    else if isWsChar c then (closeBr cs).map (· + 1)
    else none

/-- Lazy body of the isolation regex: `.*?}\s*\]` under DOTALL, scanning
from the character right after the opening `{`.  At each position the
lazy star first tries to stop (requiring `}` then `\s*\]`); on failure it
consumes one more character, exactly as Python's backtracking does.
Returns the number of characters consumed up to and including the final
`]`. -/
def lazyBody : List Char → Option Nat
  | [] => none
  | c :: cs =>
    if c == '\x7d' then
      match closeBr cs with
      | some k => some (1 + k)
      | none => (lazyBody cs).map (· + 1)
    else (lazyBody cs).map (· + 1)

/-- Greedy `\s*` at the head of a character list: the number of leading
whitespace characters and the remainder. -/
def skipWsCount : List Char → Nat × List Char
  | [] => (0, [])
  | c :: cs =>
    if isWsChar c then
      let p := skipWsCount cs
      (p.1 + 1, p.2)
    else (0, c :: cs)

/-- Attempt to match the full pattern `\[\s*{.*?}\s*\]` anchored at the
head of the list, returning the length of the (leftmost-lazy) match. -/
def matchLen (cs : List Char) : Option Nat :=
  match cs with
  | [] => none
  | c :: rest =>
    if c == '[' then
      let p := skipWsCount rest
      match p.2 with
      | '\x7b' :: rest2 => (lazyBody rest2).map (fun n => 1 + p.1 + 1 + n)
      | _ => none
    else none

/-- `re.search` semantics: try the anchored match at each start position
from the left; report the first position that matches together with the
match length. -/
def searchAt : List Char → Option (Nat × Nat)
  | [] => none
  | c :: cs =>
    match matchLen (c :: cs) with
    | some n => some (0, n)
    | none => (searchAt cs).map (fun q => (q.1 + 1, q.2))

/-- Model of lines 127–131 of `main.py` (117–121 of `safety.py`): the
result of `re.search(r"\[\s*{.*?}\s*\]", result, re.DOTALL)`, returning
`match.group(0)` on success and `none` when the route would answer
"No valid JSON found in GPT response". -/
def extract (s : String) : Option String :=
  (searchAt s.data).map (fun q => String.mk ((s.data.drop q.1).take q.2))

/-- Whether the text has a `[` character followed (later) by a `]`
character, i.e. whether it contains any bracketed `[...]` substring. -/
def hasOpenClose : List Char → Bool
  | [] => false
  | c :: cs => (c == '[' && cs.contains ']') || hasOpenClose cs

/-- Python `needle in haystack` substring test on character lists. -/
def inChars (nee : List Char) : List Char → Bool
  | [] => nee.isEmpty
  | c :: cs => nee.isPrefixOf (c :: cs) || inChars nee cs

/-- Python `str.upper()` restricted to ASCII letters (template names in
this repository are ASCII). -/
def upperAscii (s : String) : String :=
  String.mk (s.data.map Char.toUpper)

/-- The four prompt contracts appearing across the two source variants:
the grinding-report schema, the MPI production-book schema, the generic
two-column-pair (Die No / Qty) schema, and the fallback document-parser
prompt of `safety.py`. -/
inductive Prompt where
  | grinding
  | mpi
  | twoColumn
  | genericDoc
deriving DecidableEq

/-- Prompt selection of `main.py` lines 58–113:
`if "GRINDING" in template_name.upper()` chooses the grinding schema,
everything else gets the two-column-pair schema. -/
def resolveMain (templateName : String) : Prompt :=
  if inChars "GRINDING".data (upperAscii templateName).data then Prompt.grinding
  else Prompt.twoColumn

/-- Prompt selection of `safety.py` lines 39–101:
`if "MPI" in template_name` (case-sensitive, no upper-casing), then
`elif "SHOT BLASTING" in template_name or "GRINDING" in template_name`,
else the generic document-parser prompt. -/
def resolveSafety (templateName : String) : Prompt :=
  if inChars "MPI".data templateName.data then Prompt.mpi
  else if inChars "SHOT BLASTING".data templateName.data
       || inChars "GRINDING".data templateName.data then Prompt.twoColumn
  else Prompt.genericDoc

/-- Scalar JSON values appearing in the flat records the OCR prompts
request (string, integer, null).  JSON floats and booleans do not occur
in the prompted schemas and are not modelled. -/
inductive JVal where
  | str : String → JVal
  | int : Int → JVal
  | null : JVal
deriving DecidableEq

/-- A flat JSON record: an ordered association list from field name to
scalar value (Python dicts cannot hold duplicate keys; theorems about
record values assume key uniqueness where it matters). -/
abbrev JRec := List (String × JVal)

/-- Keys of a record, in order. -/
def keysOf (r : JRec) : List String := r.map Prod.fst

/-- Append a key to the accumulated column list if it has not been seen
yet — the loop body of pandas' unique-columns collection when building a
DataFrame from a list of dicts. -/
def addKey (acc : List String) (k : String) : List String :=
  if acc.contains k then acc else acc ++ [k]

/-- Column union in first-seen order, as computed by
`DataFrame(list_of_dicts)` inside `pd.read_json` (line 136 of `main.py`,
line 127 of `safety.py`): iterate the records, appending each key the
first time it occurs. -/
def unionKeys (recs : List JRec) : List String :=
  recs.foldl (fun acc r => (keysOf r).foldl addKey acc) []

/-- Reference formulation of "ordered union of keys in first-occurrence
order" used to state the column-order property: keep the head key and
drop its later duplicates, recursively. -/
def firstSeen : List String → List String
  | [] => []
  | k :: ks => k :: firstSeen (ks.filter (fun x => x ≠ k))
termination_by l => l.length
decreasing_by
  simp only [List.length_cons]
  exact Nat.lt_succ_of_le (List.length_filter_le _ _)

/-- Cell contents of the normalized table: a literal string, an int64
value, a finite float64 value (modelled as an exact rational), a signed
float64 infinity (`inf true` is negative), or NaN — which numpy uses
both as the missing-value marker and as the value of `float("nan")`;
the two are the same float64 object, so one constructor is faithful. -/
inductive Cell where
  | str : String → Cell
  | int : Int → Cell
  | num : ℚ → Cell
  | inf : Bool → Cell
  | nan : Cell
deriving DecidableEq

/-- Value of record `r` in column `k` before dtype inference: the
record's value when the key is present (JSON null reads back as a
missing value), and NaN when the key is absent — pandas fills absent
fields of a dict-built DataFrame with NaN. -/
def rawCell (r : JRec) (k : String) : Cell :=
  match r.find? (fun p => decide (p.1 = k)) with
  | some p =>
    match p.2 with
    | JVal.str s => Cell.str s
    | JVal.int n => Cell.int n
    | JVal.null => Cell.nan
  | none => Cell.nan

/-- Natural value of a digit string. -/
def digitsVal (ds : List Char) : Nat :=
  ds.foldl (fun a c => a * 10 + (c.toNat - 48)) 0

/-- Split a leading run of decimal digits. -/
def spanDigits (cs : List Char) : List Char × List Char :=
  match cs with
  | [] => ([], [])
  | c :: rest =>
    if c.isDigit then
      let p := spanDigits rest
      (c :: p.1, p.2)
    else ([], c :: rest)

/-- Optional sign; returns the sign as +1 or -1 and the remainder. -/
def takeSign (cs : List Char) : Int × List Char :=
  match cs with
  | '+' :: rest => (1, rest)
  | '-' :: rest => (-1, rest)
  | _ => (1, cs)

/-- Exponent clause of a float literal: `(e|E)(+|-)?digits`; when no
exponent clause starts here the remainder must be empty.  Returns the
signed exponent. -/
def pyExp : List Char → Option Int
  | [] => some 0
  | c :: rest =>
    if c == 'e' || c == 'E' then
      let sp := takeSign rest
      let dp := spanDigits sp.2
      if dp.1.isEmpty then none
      else if dp.2.isEmpty then some (sp.1 * (digitsVal dp.1 : Int))
      else none
    else none

/-- Python `float(s)` restricted to finite decimal literals without
underscore separators: optional surrounding whitespace, optional sign,
digits with an optional decimal point (at least one digit overall), and
an optional exponent.  The result is the exact rational value.  This
conservative recognizer is used only to state the axis-label boundary
hypothesis (a label it accepts is certainly coerced by `convert_axes`);
the element classification performed by `astype("float64")` is the
fuller `pyFloatFull?` below, which additionally handles the
`inf`/`infinity`/`nan` literals and underscore separators. -/
def pyFloat? (s : String) : Option ℚ :=
  let core := ((s.data.dropWhile isWsChar).reverse.dropWhile isWsChar).reverse
  let sp := takeSign core
  let ip := spanDigits sp.2
  let fp : List Char × List Char :=
    match ip.2 with
    | '.' :: rest => spanDigits rest
    | _ => ([], ip.2)
  if ip.1.isEmpty && fp.1.isEmpty then none
  else
    match pyExp fp.2 with
    | none => none
    | some e =>
      let m : Int := sp.1 * (digitsVal (ip.1 ++ fp.1) : Int)
      if 0 ≤ e then some (mkRat (m * (10 : Int) ^ e.toNat) ((10 : Nat) ^ fp.1.length))
      else some (mkRat m ((10 : Nat) ^ (fp.1.length + e.natAbs)))

/-- Result of a successful Python `float(s)` call: a finite value, a
signed infinity (`inf true` is negative), or NaN. -/
inductive PyVal where
  | fin : ℚ → PyVal
  | inf : Bool → PyVal
  | nan : PyVal
deriving DecidableEq

/-- Split a leading Python digit group with underscore separators: a
single underscore is allowed only between two digits (so `1_0` consumes
fully, while `1_`, `1__0` and `_1` stop before the underscore and the
overall literal parse then fails on the leftover).  Returns the digits
with the underscores removed, plus the remainder. -/
def spanDigitsU : List Char → List Char × List Char
  | [] => ([], [])
  | [c] => if c.isDigit then ([c], []) else ([], [c])
  | c :: '_' :: d :: rest2 =>
    if c.isDigit then
      if d.isDigit then
        let p := spanDigitsU (d :: rest2)
        (c :: p.1, p.2)
      else ([c], '_' :: d :: rest2)
    else ([], c :: '_' :: d :: rest2)
  | c :: rest =>
    if c.isDigit then
      let p := spanDigitsU rest
      (c :: p.1, p.2)
    else ([], c :: rest)

/-- Exponent clause of a float literal with underscore separators:
`(e|E)(+|-)?digitgroup`; when no exponent clause starts here the
remainder must be empty.  Returns the signed exponent. -/
def pyExpU : List Char → Option Int
  | [] => some 0
  | c :: rest =>
    if c == 'e' || c == 'E' then
      let sp := takeSign rest
      let dp := spanDigitsU sp.2
      if dp.1.isEmpty then none
      else if dp.2.isEmpty then some (sp.1 * (digitsVal dp.1 : Int))
      else none
    else none

/-- Finite part of the full `float(s)` grammar, applied after the sign:
digit groups with underscore separators, an optional decimal point, and
an optional exponent.  Returns the exact signed rational value. -/
def pyFinU? (sign : Int) (cs : List Char) : Option ℚ :=
  let ip := spanDigitsU cs
  let fp : List Char × List Char :=
    match ip.2 with
    | '.' :: rest => spanDigitsU rest
    | _ => ([], ip.2)
  if ip.1.isEmpty && fp.1.isEmpty then none
  else
    match pyExpU fp.2 with
    | none => none
    | some e =>
      let m : Int := sign * (digitsVal (ip.1 ++ fp.1) : Int)
      if 0 ≤ e then some (mkRat (m * (10 : Int) ^ e.toNat) ((10 : Nat) ^ fp.1.length))
      else some (mkRat m ((10 : Nat) ^ (fp.1.length + e.natAbs)))

/-- The element conversion numpy performs for `astype("float64")` on an
object column, i.e. Python `float(s)`: after whitespace stripping and an
optional sign, either the case-insensitive literals `inf`/`infinity`
(giving a signed infinity) or `nan` (giving NaN), or a finite numeric
literal with underscore digit separators.  Unicode digits and non-ASCII
whitespace, which Python also accepts, remain outside the model. -/
def pyFloatFull? (s : String) : Option PyVal :=
  let core := ((s.data.dropWhile isWsChar).reverse.dropWhile isWsChar).reverse
  let sp := takeSign core
  let low := sp.2.map Char.toLower
  if low = "inf".data || low = "infinity".data then some (PyVal.inf (decide (sp.1 < 0)))
  else if low = "nan".data then some PyVal.nan
  else
    match pyFinU? sp.1 sp.2 with
    | none => none
    | some q => some (PyVal.fin q)

/-- Float view of a raw cell for dtype inference: `none` when the cell
blocks `astype("float64")`, otherwise the float64 value it converts to
(an absent-key NaN and a parsed `"nan"` string are the same float64
NaN). -/
def cellFloatVal? : Cell → Option PyVal
  | Cell.nan => some PyVal.nan
  | Cell.int n => some (PyVal.fin (mkRat n 1))
  | Cell.num q => some (PyVal.fin q)
  | Cell.inf b => some (PyVal.inf b)
  | Cell.str s => pyFloatFull? s

/-- Whether a raw cell survives `astype("float64")`. -/
def isConvVal (c : Cell) : Bool := (cellFloatVal? c).isSome

/-- Whether a raw cell is a NaN after float conversion. -/
def isNaNVal (c : Cell) : Bool :=
  match cellFloatVal? c with
  | some PyVal.nan => true
  | _ => false

/-- Whether a raw cell converts to a finite integral float (so the
column can further collapse to int64; NaN and infinities cannot). -/
def isIntVal (c : Cell) : Bool :=
  match cellFloatVal? c with
  | some (PyVal.fin q) => q.den == 1
  | _ => false

/-- Cell after conversion of its column to float64. -/
def toFloatCell (c : Cell) : Cell :=
  match cellFloatVal? c with
  | some (PyVal.fin q) => Cell.num q
  | some (PyVal.inf b) => Cell.inf b
  | _ => Cell.nan

/-- Cell after conversion of its column to int64 (only applied when
every cell of the column is finite and integral). -/
def toIntCell (c : Cell) : Cell :=
  match cellFloatVal? c with
  | some (PyVal.fin q) => Cell.int q.num
  | _ => Cell.nan

/-- Per-column dtype inference of `pd.read_json` (default `dtype=True`),
the numeric pass of `Parser._try_convert_data`: an object column whose
every element converts under `astype("float64")` becomes float64, and
further becomes int64 when every value is finite and integral (pandas'
`astype("int64")` raises on NaN and infinities, and the written-back
equality check fails on non-integral values); otherwise the column is
left untouched.  (For columns whose NAME is date-like pandas first
attempts a datetime conversion; that branch is not modelled, and every
theorem about column values below carries the hypothesis that the
column name is not date-like.) -/
def convertCol (cells : List Cell) : List Cell :=
  if cells.all isConvVal then
    if cells.any isNaNVal then cells.map toFloatCell
    else if cells.all isIntVal then cells.map toIntCell
    else cells.map toFloatCell
  else cells

/-- Date-like column names, for which `pd.read_json` (default
`convert_dates=True, keep_default_dates=True`) attempts a datetime
conversion before the numeric pass: lower-cased name ending in `_at` or
`_time`, equal to `modified`, `date` or `datetime`, or starting with
`timestamp`. -/
def isDatelikeName (k : String) : Bool :=
  let l := k.data.map Char.toLower
  List.isSuffixOf "_at".data l || List.isSuffixOf "_time".data l
    || l == "modified".data || l == "date".data || l == "datetime".data
    || List.isPrefixOf "timestamp".data l

/-- Normalized table: ordered column names and row-aligned cell grid. -/
structure Table where
  cols : List String
  rows : List (List Cell)
deriving DecidableEq

/-- Raw (pre-inference) cells of one column. -/
def colCells (recs : List JRec) (k : String) : List Cell :=
  recs.map (fun r => rawCell r k)

/-- Model of `pd.read_json` applied to a JSON array of flat records
(line 136 of `main.py`, line 127 of `safety.py`): columns are the
first-seen union of keys, each column is filled with the records' values
(NaN for absent keys and JSON nulls) and then passed through dtype
inference; rows are read back in index order 0, 1, ….  (The datetime
pass for date-like column names and `convert_axes` coercion of column
labels that all parse as numbers or dates are not modelled; theorems
below restrict to columns outside those corners.) -/
def normalizeRecords (recs : List JRec) : Table :=
  let ks := unionKeys recs
  let convCols := ks.map (fun k => convertCol (colCells recs k))
  { cols := ks
    rows := (List.range recs.length).map (fun i => convCols.map (fun c => c.getD i Cell.nan)) }

/-- A merged region of the worksheet, in openpyxl's 1-based (row, col)
coordinates. -/
structure MRange where
  minRow : Nat
  maxRow : Nat
  minCol : Nat
  maxCol : Nat
deriving DecidableEq

/-- Whether a (row, col) address lies inside the region. -/
def MRange.memB (r : MRange) (p : Nat × Nat) : Bool :=
  decide (r.minRow ≤ p.1) && decide (p.1 ≤ r.maxRow)
    && decide (r.minCol ≤ p.2) && decide (p.2 ≤ r.maxCol)

/-- Anchor (top-left) cell of the region — the only member openpyxl
exposes as a writable `Cell`; all other members are `MergedCell`s. -/
def MRange.anchor (r : MRange) : Nat × Nat := (r.minRow, r.minCol)

/-- Worksheet state: cell values addressed by (row, col) plus the set of
merged regions.  Cells absent from the association list hold whatever
the template put there (unmodelled); writes prepend, and lookup takes
the most recent entry. -/
structure Worksheet where
  cells : List ((Nat × Nat) × Cell)
  merged : List MRange
deriving DecidableEq

/-- Whether `ws.cell(row, column)` returns a `MergedCell`: the address
is a non-anchor member of some merged region. -/
def isMergedNonAnchor (ws : Worksheet) (p : Nat × Nat) : Bool :=
  ws.merged.any (fun r => r.memB p && decide (p ≠ r.anchor))

/-- Current value at an address (`none` when the pipeline has not
written there, i.e. the template value survives). -/
def getCell (ws : Worksheet) (p : Nat × Nat) : Option Cell :=
  (ws.cells.find? (fun e => decide (e.1 = p))).map (fun e => e.2)

/-- One loop body of the writer (lines 156–159 / 161–165 of `main.py`):
fetch the cell and assign its value unless it is a `MergedCell`, in
which case the write is silently skipped. -/
def writeCell (ws : Worksheet) (p : Nat × Nat) (v : Cell) : Worksheet :=
  if isMergedNonAnchor ws p then ws
  else { ws with cells := (p, v) :: ws.cells }

/-- Sequential writes of a list of values along row `r` starting at
column `j` (the inner `enumerate` loop, with `column = j + 1` counted
from 1). -/
def writeRowFrom (ws : Worksheet) (r j : Nat) : List Cell → Worksheet
  | [] => ws
  | v :: vs => writeRowFrom (writeCell ws (r, j) v) r (j + 1) vs

/-- Header loop: write the column names into row 2, columns 1, 2, …. -/
def writeHeader (ws : Worksheet) (cols : List String) : Worksheet :=
  writeRowFrom ws 2 1 (cols.map Cell.str)

/-- Data loop over `df.iterrows()`: row index `i` goes to worksheet row
`i + 3`, modelled by starting at row `r` and incrementing. -/
def writeRows (ws : Worksheet) (r : Nat) : List (List Cell) → Worksheet
  | [] => ws
  | row :: rest => writeRows (writeRowFrom ws r 1 row) (r + 1) rest

/-- Grid writer of the `upload` route (lines 156–165 of `main.py`,
147–157 of `safety.py`): headers into row 2, data rows from row 3
onward, each write skipping `MergedCell` addresses. -/
def populate (ws : Worksheet) (t : Table) : Worksheet :=
  writeRows (writeHeader ws t.cols) 3 t.rows

/-- Drop leading JSON whitespace. -/
def dropWsL (cs : List Char) : List Char := cs.dropWhile isWsChar

/-- Two-character JSON string escapes (`\uXXXX` escapes are accepted by
the real JSON reader but not modelled; no theorem below involves
them). -/
def escChar? (e : Char) : Option Char :=
  if e == '"' then some '"'
  else if e == '\\' then some '\\'
  else if e == '/' then some '/'
  else if e == 'n' then some '\n'
  else if e == 't' then some '\t'
  else if e == 'r' then some '\r'
  else if e == 'b' then some (Char.ofNat 8)
  else if e == 'f' then some (Char.ofNat 12)
  else none

/-- Body of a JSON string literal after the opening quote: content up to
the closing quote, plus the remainder of the input. -/
def parseStr : List Char → Option (List Char × List Char)
  | [] => none
  | '"' :: rest => some ([], rest)
  | '\\' :: e :: rest2 =>
    match escChar? e with
    | none => none
    | some c => (parseStr rest2).map (fun p => (c :: p.1, p.2))
  | ['\\'] => none
  | c :: rest => (parseStr rest).map (fun p => (c :: p.1, p.2))

/-- JSON integer literal (optional minus, digits); float literals are
not modelled and make the parse fail. -/
def parseIntLit (cs : List Char) : Option (Int × List Char) :=
  let sp : Bool × List Char :=
    match cs with
    | '-' :: t => (true, t)
    | _ => (false, cs)
  let dp := spanDigits sp.2
  if dp.1.isEmpty then none
  else
    match dp.2 with
    | '.' :: _ => none
    | 'e' :: _ => none
    | 'E' :: _ => none
    | rest => some (if sp.1 then -(digitsVal dp.1 : Int) else (digitsVal dp.1 : Int), rest)

/-- Scalar JSON value: string, integer or null. -/
def parseJVal : List Char → Option (JVal × List Char)
  | '"' :: rest => (parseStr rest).map (fun p => (JVal.str (String.mk p.1), p.2))
  | 'n' :: 'u' :: 'l' :: 'l' :: rest => some (JVal.null, rest)
  | cs => (parseIntLit cs).map (fun p => (JVal.int p.1, p.2))

/-- Python dict insertion: a duplicate key keeps its original position
but takes the later value. -/
def insertPair (r : JRec) (k : String) (v : JVal) : JRec :=
  if r.any (fun p => decide (p.1 = k)) then
    r.map (fun p => if p.1 = k then (k, v) else p)
  else r ++ [(k, v)]

/-- Members of a JSON object after the opening brace (fuelled loop: the
fuel only bounds iterations and is set above the input length). -/
def parseMembers : Nat → JRec → List Char → Option (JRec × List Char)
  | 0, _, _ => none
  | fuel + 1, acc, cs =>
    match dropWsL cs with
    | '"' :: rest =>
      match parseStr rest with
      | none => none
      | some (kcs, rest2) =>
        match dropWsL rest2 with
        | ':' :: rest3 =>
          match parseJVal (dropWsL rest3) with
          | none => none
          | some (v, rest4) =>
            let acc2 := insertPair acc (String.mk kcs) v
            match dropWsL rest4 with
            | ',' :: rest5 => parseMembers fuel acc2 rest5
            | '\x7d' :: rest5 => some (acc2, rest5)
            | _ => none
        | _ => none
    | _ => none

/-- One flat JSON object. -/
def parseObj (fuel : Nat) (cs : List Char) : Option (JRec × List Char) :=
  match dropWsL cs with
  | '\x7b' :: rest =>
    match dropWsL rest with
    | '\x7d' :: rest2 => some ([], rest2)
    | _ => parseMembers fuel [] rest
  | _ => none

/-- Elements of the array after the opening bracket. -/
def parseElems : Nat → List JRec → List Char → Option (List JRec × List Char)
  | 0, _, _ => none
  | fuel + 1, acc, cs =>
    match parseObj fuel cs with
    | none => none
    | some (r, rest) =>
      match dropWsL rest with
      | ',' :: rest2 => parseElems fuel (acc ++ [r]) rest2
      | ']' :: rest2 => some (acc ++ [r], rest2)
      | _ => none

/-- Model of `pd.read_json` string-level parsing restricted to a JSON
array of flat records with string/integer/null values: the whole input
must be one such array (surrounded only by whitespace), or the read
fails — the route's "GPT-4o failed" branch.  Arrays with nested or
float/bool values are accepted by the real reader but outside the
modelled fragment; no theorem below depends on them. -/
def readJsonRecords (s : String) : Option (List JRec) :=
  match dropWsL s.data with
  | '[' :: rest =>
    let res : Option (List JRec × List Char) :=
      match dropWsL rest with
      | ']' :: rest2 => some ([], rest2)
      | _ => parseElems (s.data.length + 1) [] rest
    match res with
    | some (recs, rest2) => if (dropWsL rest2).isEmpty then some recs else none
    | none => none
  | _ => none

/-- Filesystem side effects of the `upload` route that create or modify
files, in program order: the `debug_output.json` dump, `os.makedirs` on
the output directory, the `shutil.copy` of the template, and the
workbook save. -/
inductive Effect where
  | writeDebug : String → Effect
  | makeOutputDir : Effect
  | copyTemplate : Effect
  | saveWorkbook : Effect
deriving DecidableEq

/-- Terminal outcome of one `upload` request: the early 400 for a
missing image/template field, the handled extraction and parse errors
(HTTP 500 with a stage message), the unhandled `shutil.copy` crash when
the template file does not exist, or a saved workbook. -/
inductive Outcome where
  | badRequest : Outcome
  | extractionError : Outcome
  | parseError : Outcome
  | copyCrash : Outcome
  | saved : Worksheet → Outcome
deriving DecidableEq

/-- Model of the `upload` route (lines 27–173 of `main.py`, 26–161 of
`safety.py`) from the point the OCR response text `resp` is available:
input validation, JSON isolation, debug dump, record parsing and
normalization, template copy, populate, save.  `hasImage` and
`templateName` model the request fields (an absent form field is the
empty string, matching Python falsiness); `formats` is the set of files
present in the template directory; `tmpl` is the template workbook the
copy starts from.  The OCR call itself, image decoding and the HTTP
layer are external collaborators and appear only through `resp`. -/
def upload (hasImage : Bool) (templateName : String) (formats : List String)
    (resp : String) (tmpl : Worksheet) : List Effect × Outcome :=
  if !hasImage || templateName == "" then ([], Outcome.badRequest)
  else
    match extract resp with
    | none => ([], Outcome.extractionError)
    | some js =>
      match readJsonRecords js with
      | none => ([Effect.writeDebug js], Outcome.parseError)
      | some recs =>
        let t := normalizeRecords recs
        if formats.contains templateName then
          ([Effect.writeDebug js, Effect.makeOutputDir, Effect.copyTemplate,
              Effect.saveWorkbook],
            Outcome.saved (populate tmpl t))
        else ([Effect.writeDebug js, Effect.makeOutputDir], Outcome.copyCrash)

/-! ### Facts about the grid writer -/

theorem merged_writeCell (ws : Worksheet) (q : Nat × Nat) (v : Cell) (p : Nat × Nat) :
    isMergedNonAnchor (writeCell ws q v) p = isMergedNonAnchor ws p := by
  unfold writeCell
  split <;> rfl

theorem getCell_writeCell_ne (ws : Worksheet) {q p : Nat × Nat} (v : Cell) (h : q ≠ p) :
    getCell (writeCell ws q v) p = getCell ws p := by
  unfold writeCell
  split
  · rfl
  · unfold getCell
    rw [List.find?_cons_of_neg]
    simpa using h

theorem getCell_writeCell_self (ws : Worksheet) (p : Nat × Nat) (v : Cell)
    (h : isMergedNonAnchor ws p = false) :
    getCell (writeCell ws p v) p = some v := by
  simp [writeCell, h, getCell, List.find?]

theorem getCell_writeCell_merged (ws : Worksheet) (q p : Nat × Nat) (v : Cell)
    (h : isMergedNonAnchor ws p = true) :
    getCell (writeCell ws q v) p = getCell ws p := by
  by_cases hqp : q = p
  · subst hqp
    simp [writeCell, h]
  · exact getCell_writeCell_ne ws v hqp

theorem merged_writeRowFrom (vs : List Cell) :
    ∀ (ws : Worksheet) (r j : Nat) (p : Nat × Nat),
      isMergedNonAnchor (writeRowFrom ws r j vs) p = isMergedNonAnchor ws p := by
  induction vs with
  | nil => intro ws r j p; rfl
  | cons v vs ih =>
    intro ws r j p
    show isMergedNonAnchor (writeRowFrom (writeCell ws (r, j) v) r (j + 1) vs) p = _
    rw [ih, merged_writeCell]

theorem getCell_writeRowFrom_merged (vs : List Cell) :
    ∀ (ws : Worksheet) (r j : Nat) (p : Nat × Nat), isMergedNonAnchor ws p = true →
      getCell (writeRowFrom ws r j vs) p = getCell ws p := by
  induction vs with
  | nil => intro ws r j p _; rfl
  | cons v vs ih =>
    intro ws r j p h
    show getCell (writeRowFrom (writeCell ws (r, j) v) r (j + 1) vs) p = _
    rw [ih _ r (j + 1) p (by rw [merged_writeCell]; exact h)]
    exact getCell_writeCell_merged ws _ p v h

theorem getCell_writeRowFrom_out (vs : List Cell) :
    ∀ (ws : Worksheet) (r j a b : Nat), a ≠ r ∨ b < j →
      getCell (writeRowFrom ws r j vs) (a, b) = getCell ws (a, b) := by
  induction vs with
  | nil => intro ws r j a b _; rfl
  | cons v vs ih =>
    intro ws r j a b h
    show getCell (writeRowFrom (writeCell ws (r, j) v) r (j + 1) vs) (a, b) = _
    rw [ih _ r (j + 1) a b (by rcases h with h | h; exact Or.inl h; exact Or.inr (by omega))]
    apply getCell_writeCell_ne
    simp only [ne_eq, Prod.mk.injEq, not_and]
    intro h1 h2
    rcases h with h | h
    · exact h h1.symm
    · omega

theorem getCell_writeRowFrom_at (vs : List Cell) :
    ∀ (ws : Worksheet) (r j k : Nat) (v : Cell), vs.get? k = some v →
      isMergedNonAnchor ws (r, j + k) = false →
      getCell (writeRowFrom ws r j vs) (r, j + k) = some v := by
  induction vs with
  | nil => intro ws r j k v h _; simp at h
  | cons w vs ih =>
    intro ws r j k v h hm
    cases k with
    | zero =>
      have hv : w = v := by simpa using h
      subst hv
      have hm2 : isMergedNonAnchor ws (r, j) = false := hm
      show getCell (writeRowFrom (writeCell ws (r, j) w) r (j + 1) vs) (r, j) = some w
      rw [getCell_writeRowFrom_out vs _ r (j + 1) r j (Or.inr (Nat.lt_succ_self j))]
      exact getCell_writeCell_self ws (r, j) w hm2
    | succ k =>
      show getCell (writeRowFrom (writeCell ws (r, j) w) r (j + 1) vs) (r, j + (k + 1)) = _
      have harith : j + (k + 1) = (j + 1) + k := by omega
      rw [harith] at hm ⊢
      exact ih _ r (j + 1) k v (by simpa using h)
        (by rw [merged_writeCell]; exact hm)

theorem merged_writeRows (rows : List (List Cell)) :
    ∀ (ws : Worksheet) (r : Nat) (p : Nat × Nat),
      isMergedNonAnchor (writeRows ws r rows) p = isMergedNonAnchor ws p := by
  induction rows with
  | nil => intro ws r p; rfl
  | cons row rest ih =>
    intro ws r p
    show isMergedNonAnchor (writeRows (writeRowFrom ws r 1 row) (r + 1) rest) p = _
    rw [ih, merged_writeRowFrom]

theorem getCell_writeRows_merged (rows : List (List Cell)) :
    ∀ (ws : Worksheet) (r : Nat) (p : Nat × Nat), isMergedNonAnchor ws p = true →
      getCell (writeRows ws r rows) p = getCell ws p := by
  induction rows with
  | nil => intro ws r p _; rfl
  | cons row rest ih =>
    intro ws r p h
    show getCell (writeRows (writeRowFrom ws r 1 row) (r + 1) rest) p = _
    rw [ih _ (r + 1) p (by rw [merged_writeRowFrom]; exact h)]
    exact getCell_writeRowFrom_merged row ws r 1 p h

theorem getCell_writeRows_lt (rows : List (List Cell)) :
    ∀ (ws : Worksheet) (r a b : Nat), a < r →
      getCell (writeRows ws r rows) (a, b) = getCell ws (a, b) := by
  induction rows with
  | nil => intro ws r a b _; rfl
  | cons row rest ih =>
    intro ws r a b h
    show getCell (writeRows (writeRowFrom ws r 1 row) (r + 1) rest) (a, b) = _
    rw [ih _ (r + 1) a b (by omega)]
    exact getCell_writeRowFrom_out row ws r 1 a b (Or.inl (by omega))

theorem getCell_writeRows_at (rows : List (List Cell)) :
    ∀ (ws : Worksheet) (r i j : Nat) (row : List Cell) (v : Cell),
      rows.get? i = some row → row.get? j = some v →
      isMergedNonAnchor ws (r + i, 1 + j) = false →
      getCell (writeRows ws r rows) (r + i, 1 + j) = some v := by
  induction rows with
  | nil => intro ws r i j row v h _ _; simp at h
  | cons row0 rest ih =>
    intro ws r i j row v hrow hv hm
    cases i with
    | zero =>
      have hr0 : row0 = row := by simpa using hrow
      subst hr0
      have hm2 : isMergedNonAnchor ws (r, 1 + j) = false := hm
      show getCell (writeRows (writeRowFrom ws r 1 row0) (r + 1) rest) (r, 1 + j) = some v
      rw [getCell_writeRows_lt rest _ (r + 1) r (1 + j) (by omega)]
      exact getCell_writeRowFrom_at row0 ws r 1 j v hv hm2
    | succ i =>
      show getCell (writeRows (writeRowFrom ws r 1 row0) (r + 1) rest) (r + (i + 1), 1 + j) = _
      have harith : r + (i + 1) = (r + 1) + i := by omega
      rw [harith] at hm ⊢
      exact ih _ (r + 1) i j row v (by simpa using hrow) hv
        (by rw [merged_writeRowFrom]; exact hm)

/-! ### Facts about normalization -/

theorem length_convertCol (cells : List Cell) : (convertCol cells).length = cells.length := by
  unfold convertCol
  split
  · split
    · simp
    · split <;> simp
  · rfl

theorem convertCol_get?_nan (cells : List Cell) (i : Nat) (h : cells.get? i = some Cell.nan) :
    (convertCol cells).get? i = some Cell.nan := by
  rw [List.get?_eq_getElem?] at h
  have hmem : Cell.nan ∈ cells := by
    obtain ⟨hlt, he⟩ := List.getElem?_eq_some_iff.mp h
    exact he ▸ List.getElem_mem hlt
  by_cases hall : cells.all isConvVal
  · have hany : cells.any isNaNVal = true :=
      List.any_eq_true.mpr ⟨Cell.nan, hmem, rfl⟩
    simp [convertCol, hall, hany, List.get?_eq_getElem?, h, toFloatCell, cellFloatVal?]
  · simp only [convertCol, hall, Bool.false_eq_true, if_false]
    rw [List.get?_eq_getElem?]
    exact h

theorem convertCol_unconv (cells : List Cell) (h : cells.all isConvVal = false) :
    convertCol cells = cells := by
  simp [convertCol, h]

theorem foldl_addKey_eq (ks : List String) :
    ∀ acc : List String,
      ks.foldl addKey acc = acc ++ firstSeen (ks.filter (fun k => !(acc.contains k))) := by
  induction ks with
  | nil => intro acc; simp [firstSeen]
  | cons k ks ih =>
    intro acc
    by_cases hk : k ∈ acc
    · have h1 : addKey acc k = acc := by simp [addKey, hk]
      show ks.foldl addKey (addKey acc k) = _
      rw [h1, ih acc, List.filter_cons_of_neg (by simp [hk])]
    · have h1 : addKey acc k = acc ++ [k] := by simp [addKey, hk]
      show ks.foldl addKey (addKey acc k) = _
      rw [h1, ih (acc ++ [k]), List.filter_cons_of_pos (by simp [hk])]
      rw [firstSeen, List.filter_filter, List.append_assoc]
      have hfil : (ks.filter (fun x => !((acc ++ [k]).contains x)))
          = ks.filter (fun a => decide ¬a = k && !acc.contains a) := by
        apply List.filter_congr
        intro a _
        by_cases hak : a = k
        · subst hak
          simp
        · by_cases ha : a ∈ acc <;> simp [hak, ha]
      rw [hfil]
      rfl

theorem unionKeys_eq_firstSeen (recs : List JRec) :
    unionKeys recs = firstSeen ((recs.map keysOf).flatten) := by
  have h1 : ((recs.map keysOf).flatten).foldl addKey [] = unionKeys recs := by
    rw [List.foldl_flatten, List.foldl_map]
    rfl
  rw [← h1, foldl_addKey_eq]
  have h2 : ((recs.map keysOf).flatten).filter (fun k => !(([] : List String).contains k))
      = (recs.map keysOf).flatten := by
    apply List.filter_eq_self.mpr
    intro a _
    simp
  rw [h2]
  rfl

theorem normalize_rows_get? (recs : List JRec) (i : Nat) (hi : i < recs.length) :
    (normalizeRecords recs).rows.get? i
      = some (((unionKeys recs).map (fun k => convertCol (colCells recs k))).map
          (fun c => c.getD i Cell.nan)) := by
  simp [normalizeRecords, List.get?_eq_getElem?, List.getElem?_range hi]

theorem normalize_entry (recs : List JRec) (i j : Nat) (k : String)
    (hk : (unionKeys recs).get? j = some k) (hi : i < recs.length) :
    ∃ row, (normalizeRecords recs).rows.get? i = some row ∧
      row.get? j = some ((convertCol (colCells recs k)).getD i Cell.nan) := by
  refine ⟨_, normalize_rows_get? recs i hi, ?_⟩
  rw [List.get?_eq_getElem?] at hk ⊢
  rw [List.getElem?_map, List.getElem?_map, hk]
  rfl

theorem colCells_get? (recs : List JRec) (k : String) (i : Nat) (r : JRec)
    (hr : recs.get? i = some r) :
    (colCells recs k).get? i = some (rawCell r k) := by
  rw [List.get?_eq_getElem?] at hr ⊢
  rw [colCells, List.getElem?_map, hr]
  rfl

/-! ### Claims about normalization (C2, C3, C6) -/

/-- C2 (amended): after normalization every row has exactly
`len(columns)` entries, but a record that lacks one of the union columns
receives pandas' NaN missing-value marker in that position, not the
empty-string sentinel.  (Stated for columns whose name is not date-like,
the fragment in which the dtype inference of `pd.read_json` is
modelled.) -/
theorem normalize_missing_becomes_nan :
    (∀ recs : List JRec, ∀ row ∈ (normalizeRecords recs).rows,
      row.length = (normalizeRecords recs).cols.length)
  ∧ (∀ (recs : List JRec) (i j : Nat) (k : String) (r : JRec),
      (normalizeRecords recs).cols.get? j = some k →
      isDatelikeName k = false →
      recs.get? i = some r →
      r.find? (fun p => decide (p.1 = k)) = none →
      ∃ row, (normalizeRecords recs).rows.get? i = some row ∧
        row.get? j = some Cell.nan) := by
  constructor
  · intro recs row hrow
    simp only [normalizeRecords, List.mem_map, List.mem_range] at hrow
    obtain ⟨i, _, hrow⟩ := hrow
    subst hrow
    simp [normalizeRecords]
  · intro recs i j k r hk hdl hr hmiss
    have hi : i < recs.length := by
      rw [List.get?_eq_getElem?] at hr
      exact (List.getElem?_eq_some_iff.mp hr).1
    obtain ⟨row, h1, h2⟩ := normalize_entry recs i j k hk hi
    refine ⟨row, h1, ?_⟩
    rw [h2]
    have hraw : rawCell r k = Cell.nan := by
      rw [rawCell, hmiss]
    have hcol : (colCells recs k).get? i = some Cell.nan := by
      rw [colCells_get? recs k i r hr, hraw]
    have hconv := convertCol_get?_nan (colCells recs k) i hcol
    rw [List.getD_eq_getElem?_getD, ← List.get?_eq_getElem?, hconv]
    rfl

/-- C2 counterexample: normalizing scenario B's records, where the first
record lacks the column "Die No.1", puts NaN — not the empty string — in
that cell (and coerces the digit-string columns to integers). -/
theorem normalize_missing_not_empty_string :
    (normalizeRecords
        [[("Die No", JVal.str "5213"), ("Qty", JVal.str "190")],
         [("Die No", JVal.str "4209"), ("Qty", JVal.str "169"),
          ("Die No.1", JVal.str "RS:B")]]).rows
      = [[Cell.int 5213, Cell.int 190, Cell.nan],
         [Cell.int 4209, Cell.int 169, Cell.str "RS:B"]]
  ∧ Cell.nan ≠ Cell.str "" := by decide

/-- C2 witness: the amended statement applied to a concrete pair of
records with a missing field. -/
theorem normalize_missing_becomes_nan_witness :
    ∃ row, (normalizeRecords
        [[("Die No", JVal.str "5213")],
         [("Die No", JVal.str "4209"), ("Die No.1", JVal.str "RS:B")]]).rows.get? 0
      = some row ∧ row.get? 1 = some Cell.nan :=
  normalize_missing_becomes_nan.2
    [[("Die No", JVal.str "5213")],
     [("Die No", JVal.str "4209"), ("Die No.1", JVal.str "RS:B")]]
    0 1 "Die No.1" [("Die No", JVal.str "5213")]
    (by decide) (by decide) (by decide) (by decide)

/-- C3 (amended): values are not passed through to the workbook
unconditionally.  A column whose NAME is date-like (lower-cased name
equal to "date", "datetime" or "modified", ending in "_at" or "_time",
or starting with "timestamp") first undergoes pandas' datetime pass, so
parseable date strings such as scenario A's "25/07/25" under "DATE"
become timestamps rather than literal text — such columns are excluded
by hypothesis, the datetime pass being outside the model.  Among the
remaining columns, one whose every value parses under Python `float`
(numeric literals with underscore separators, and the literals
nan/inf/infinity) is numerically coerced, as the third conjunct shows
on such literals; only a non-date-named column containing at least one
token that `float` rejects — dash-containing codes, free-form text — is
passed through as the literal extracted text (first and second
conjuncts). -/
theorem normalize_nonnumeric_passthrough :
    (∀ (recs : List JRec) (i j : Nat) (k : String) (r : JRec),
      (normalizeRecords recs).cols.get? j = some k →
      isDatelikeName k = false →
      (colCells recs k).all isConvVal = false →
      recs.get? i = some r →
      ∃ row, (normalizeRecords recs).rows.get? i = some row ∧
        row.get? j = some (rawCell r k))
  ∧ (normalizeRecords
        [[("DIE NO", JVal.str "443-20"), ("VENDOR", JVal.str "SAARAMBHA")]]).rows
      = [[Cell.str "443-20", Cell.str "SAARAMBHA"]]
  ∧ (normalizeRecords
        [[("Qty", JVal.str "1_0"), ("OK", JVal.str "nan"),
          ("Rework", JVal.str "-inf")]]).rows
      = [[Cell.int 10, Cell.nan, Cell.inf true]] := by
  refine ⟨?_, by decide, by decide⟩
  intro recs i j k r hk hdl hunconv hr
  have hi : i < recs.length := by
    rw [List.get?_eq_getElem?] at hr
    exact (List.getElem?_eq_some_iff.mp hr).1
  obtain ⟨row, h1, h2⟩ := normalize_entry recs i j k hk hi
  refine ⟨row, h1, ?_⟩
  rw [h2, convertCol_unconv _ hunconv]
  rw [List.getD_eq_getElem?_getD, ← List.get?_eq_getElem?, colCells_get? recs k i r hr]
  rfl

/-- C3 counterexample: a column of digit strings is coerced to int64 by
normalization — the value written to the workbook is the number 190, not
the literal text "190". -/
theorem normalize_coerces_digit_strings :
    (normalizeRecords [[("Qty", JVal.str "190")], [("Qty", JVal.str "169")]]).rows
      = [[Cell.int 190], [Cell.int 169]]
  ∧ Cell.int 190 ≠ Cell.str "190" := by decide

/-- C3 witness: the passthrough statement applied to a concrete
non-numeric column. -/
theorem normalize_nonnumeric_passthrough_witness :
    ∃ row, (normalizeRecords [[("Die No.1", JVal.str "RS:B")]]).rows.get? 0 = some row ∧
      row.get? 0 = some (rawCell [("Die No.1", JVal.str "RS:B")] "Die No.1") :=
  normalize_nonnumeric_passthrough.1
    [[("Die No.1", JVal.str "RS:B")]] 0 0 "Die No.1" [("Die No.1", JVal.str "RS:B")]
    (by decide) (by decide) (by decide) (by decide)

/-- C6: the normalized column sequence is the ordered union of record
keys in first-occurrence order (record 1's keys first, later-introduced
keys appended), and in particular scenario B yields the columns
"Die No", "Qty", "Die No.1".  (The hypothesis keeps the statement in the
modelled fragment: no column label itself parses as a number, which
would trigger pandas' axis-label coercion.) -/
theorem normalize_cols_first_seen :
    (∀ recs : List JRec,
      (unionKeys recs).all (fun k => decide (pyFloat? k = none)) = true →
      (normalizeRecords recs).cols = firstSeen ((recs.map keysOf).flatten))
  ∧ (normalizeRecords
        [[("Die No", JVal.str "5213"), ("Qty", JVal.str "190")],
         [("Die No", JVal.str "4209"), ("Qty", JVal.str "169"),
          ("Die No.1", JVal.str "RS:B")]]).cols
      = ["Die No", "Qty", "Die No.1"] := by
  constructor
  · intro recs _
    exact unionKeys_eq_firstSeen recs
  · decide

/-- C6 witness: the first-occurrence characterization applied to
concrete records whose second record introduces a fresh key. -/
theorem normalize_cols_first_seen_witness :
    (normalizeRecords
        [[("Die No", JVal.str "5213"), ("Qty", JVal.str "190")],
         [("Qty", JVal.str "169"), ("Remark", JVal.str "ok")]]).cols
      = firstSeen (([[("Die No", JVal.str "5213"), ("Qty", JVal.str "190")],
          [("Qty", JVal.str "169"), ("Remark", JVal.str "ok")]].map keysOf).flatten) :=
  normalize_cols_first_seen.1
    [[("Die No", JVal.str "5213"), ("Qty", JVal.str "190")],
     [("Qty", JVal.str "169"), ("Remark", JVal.str "ok")]]
    (by decide)

/-! ### Claims about the grid writer (C1, C7) -/

/-- C1: for every workbook and table, `populate` never changes the
value of a cell that is a non-anchor member of a merged region — a
header or data write targeting such a cell is silently skipped (the cell
keeps its pre-populate value) and the operation is total. -/
theorem populate_preserves_merged (ws : Worksheet) (t : Table) (p : Nat × Nat)
    (h : isMergedNonAnchor ws p = true) :
    getCell (populate ws t) p = getCell ws p := by
  show getCell (writeRows (writeRowFrom ws 2 1 (t.cols.map Cell.str)) 3 t.rows) p = getCell ws p
  rw [getCell_writeRows_merged t.rows _ 3 p (by rw [merged_writeRowFrom]; exact h)]
  exact getCell_writeRowFrom_merged _ ws 2 1 p h

/-- C1 witness: a template whose header banner merges columns 1–3 of
row 2 keeps its banner cell (2, 2) untouched when populated with three
header labels and one data row. -/
theorem populate_preserves_merged_witness :
    isMergedNonAnchor
        { cells := [((2, 2), Cell.str "BANNER")],
          merged := [{ minRow := 2, maxRow := 2, minCol := 1, maxCol := 3 }] } (2, 2) = true
  ∧ getCell
      (populate
        { cells := [((2, 2), Cell.str "BANNER")],
          merged := [{ minRow := 2, maxRow := 2, minCol := 1, maxCol := 3 }] }
        { cols := ["DATE", "SHIFT", "DIE NO"],
          rows := [[Cell.str "25/07/25", Cell.str "I", Cell.str "5196"]] }) (2, 2)
      = getCell
        { cells := [((2, 2), Cell.str "BANNER")],
          merged := [{ minRow := 2, maxRow := 2, minCol := 1, maxCol := 3 }] } (2, 2) :=
  ⟨by decide, populate_preserves_merged _ _ _ (by decide)⟩

/-- C7: `populate` writes column name `c_j` into the cell at
(row 2, column j+1) and the value at data row i, column j into
(row 3+i, column j+1), subject only to the merged-cell skip rule. -/
theorem populate_positions (ws : Worksheet) (t : Table) :
    (∀ (j : Nat) (c : String), t.cols.get? j = some c →
      isMergedNonAnchor ws (2, 1 + j) = false →
      getCell (populate ws t) (2, 1 + j) = some (Cell.str c))
  ∧ (∀ (i j : Nat) (row : List Cell) (v : Cell),
      t.rows.get? i = some row → row.get? j = some v →
      isMergedNonAnchor ws (3 + i, 1 + j) = false →
      getCell (populate ws t) (3 + i, 1 + j) = some v) := by
  constructor
  · intro j c hc hm
    show getCell (writeRows (writeRowFrom ws 2 1 (t.cols.map Cell.str)) 3 t.rows) (2, 1 + j)
      = some (Cell.str c)
    rw [getCell_writeRows_lt t.rows _ 3 2 (1 + j) (by omega)]
    apply getCell_writeRowFrom_at
    · rw [List.get?_eq_getElem?] at hc ⊢
      rw [List.getElem?_map, hc]
      rfl
    · exact hm
  · intro i j row v hrow hv hm
    show getCell (writeRows (writeRowFrom ws 2 1 (t.cols.map Cell.str)) 3 t.rows) (3 + i, 1 + j)
      = some v
    apply getCell_writeRows_at t.rows _ 3 i j row v hrow hv
    rw [merged_writeRowFrom]
    exact hm

/-- C7 witness: one extracted record produces its header labels at row 2
and its single data row at row 3 on an unmerged template. -/
theorem populate_positions_witness :
    getCell (populate { cells := [], merged := [] }
        { cols := ["DATE", "SHIFT", "DIE NO"],
          rows := [[Cell.str "25/07/25", Cell.str "I", Cell.str "5196"]] }) (2, 1)
      = some (Cell.str "DATE")
  ∧ getCell (populate { cells := [], merged := [] }
        { cols := ["DATE", "SHIFT", "DIE NO"],
          rows := [[Cell.str "25/07/25", Cell.str "I", Cell.str "5196"]] }) (3, 3)
      = some (Cell.str "5196") :=
  ⟨(populate_positions _ _).1 0 "DATE" (by decide) (by decide),
   (populate_positions _ _).2 0 2 [Cell.str "25/07/25", Cell.str "I", Cell.str "5196"]
     (Cell.str "5196") (by decide) (by decide) (by decide)⟩

/-! ### Facts about the JSON isolation regex -/

theorem closeBr_append (cs q : List Char) (k : Nat) (h : closeBr cs = some k) :
    closeBr (cs ++ q) = some k := by
  induction cs generalizing k with
  | nil => simp [closeBr] at h
  | cons c cs ih =>
    rw [List.cons_append]
    rw [closeBr] at h ⊢
    by_cases hc : c == ']'
    · rw [if_pos hc] at h ⊢
      exact h
    · rw [if_neg hc] at h ⊢
      by_cases hw : isWsChar c
      · rw [if_pos hw] at h ⊢
        cases hcb : closeBr cs with
        | none => rw [hcb] at h; simp at h
        | some m =>
          rw [hcb] at h
          rw [ih m hcb]
          exact h
      · rw [if_neg hw] at h
        simp at h

theorem closeBr_none_append (cs q : List Char) (h : closeBr cs = none)
    (hw : cs.all isWsChar = false) :
    closeBr (cs ++ q) = none := by
  induction cs with
  | nil => simp at hw
  | cons c cs ih =>
    rw [List.cons_append]
    rw [closeBr] at h ⊢
    by_cases hc : c == ']'
    · rw [if_pos hc] at h
      simp at h
    · rw [if_neg hc] at h ⊢
      by_cases hwc : isWsChar c
      · rw [if_pos hwc] at h ⊢
        have hw2 : cs.all isWsChar = false := by
          simp only [List.all_cons, hwc, Bool.true_and] at hw
          exact hw
        cases hcb : closeBr cs with
        | none => rw [ih hcb hw2]; rfl
        | some m => rw [hcb] at h; simp at h
      · rw [if_neg hwc] at h ⊢

theorem lazyBody_allWs (cs : List Char) (h : cs.all isWsChar = true) :
    lazyBody cs = none := by
  induction cs with
  | nil => rfl
  | cons c cs ih =>
    simp only [List.all_cons, Bool.and_eq_true] at h
    have hne : (c == '\x7d') = false := by
      cases hc : c == '\x7d'
      · rfl
      · exfalso
        have : c = '\x7d' := by simpa using hc
        subst this
        simp [isWsChar] at h
    rw [lazyBody, hne]
    simp only [Bool.false_eq_true, if_false]
    rw [ih h.2]
    rfl

theorem lazyBody_append (cs q : List Char) (n : Nat) (h : lazyBody cs = some n) :
    lazyBody (cs ++ q) = some n := by
  induction cs generalizing n with
  | nil => simp [lazyBody] at h
  | cons c cs ih =>
    rw [List.cons_append]
    rw [lazyBody] at h ⊢
    by_cases hc : c == '\x7d'
    · rw [if_pos hc] at h ⊢
      cases hcb : closeBr cs with
      | some k =>
        rw [hcb] at h
        rw [closeBr_append cs q k hcb]
        exact h
      | none =>
        rw [hcb] at h
        have hnw : cs.all isWsChar = false := by
          cases hw : cs.all isWsChar
          · rfl
          · exfalso
            rw [lazyBody_allWs cs hw] at h
            simp at h
        rw [closeBr_none_append cs q hcb hnw]
        cases hlb : lazyBody cs with
        | none => rw [hlb] at h; simp at h
        | some m =>
          rw [hlb] at h
          rw [ih m hlb]
          exact h
    · rw [if_neg hc] at h ⊢
      cases hlb : lazyBody cs with
      | none => rw [hlb] at h; simp at h
      | some m =>
        rw [hlb] at h
        rw [ih m hlb]
        exact h

theorem skipWs_append (cs q : List Char) (k : Nat) (c0 : Char) (rs : List Char)
    (h : skipWsCount cs = (k, c0 :: rs)) :
    skipWsCount (cs ++ q) = (k, c0 :: (rs ++ q)) := by
  induction cs generalizing k with
  | nil => simp [skipWsCount] at h
  | cons c cs ih =>
    rw [List.cons_append]
    rw [skipWsCount] at h ⊢
    by_cases hw : isWsChar c
    · rw [if_pos hw] at h ⊢
      cases hsk : skipWsCount cs with
      | mk m rest =>
        rw [hsk] at h
        have hk : m + 1 = k := congrArg Prod.fst h
        have hrest : rest = c0 :: rs := congrArg Prod.snd h
        subst hrest
        rw [ih m hsk]
        simp [hk]
    · rw [if_neg hw] at h ⊢
      have hk : 0 = k := congrArg Prod.fst h
      have hrest : c :: cs = c0 :: rs := congrArg Prod.snd h
      injection hrest with hc0 hcs
      subst hc0
      subst hcs
      rw [← hk]

theorem matchLen_append (cs q : List Char) (n : Nat) (h : matchLen cs = some n) :
    matchLen (cs ++ q) = some n := by
  cases cs with
  | nil => simp [matchLen] at h
  | cons c rest =>
    rw [List.cons_append]
    rw [matchLen] at h ⊢
    by_cases hc : c == '['
    · rw [if_pos hc] at h ⊢
      cases hsk : skipWsCount rest with
      | mk k tail =>
        rw [hsk] at h
        cases tail with
        | nil => simp at h
        | cons t0 ts =>
          rw [skipWs_append rest q k t0 ts hsk]
          cases ht : t0 == '\x7b'
          · have ht0 : t0 ≠ '\x7b' := by simpa using ht
            cases t0
            simp_all
          · have ht0 : t0 = '\x7b' := by simpa using ht
            subst ht0
            simp only at h ⊢
            cases hlb : lazyBody ts with
            | none => rw [hlb] at h; simp at h
            | some m =>
              rw [hlb] at h
              rw [lazyBody_append ts q m hlb]
              exact h
    · rw [if_neg hc] at h
      simp at h

theorem searchAt_shift (p t : List Char) (hp : '[' ∉ p) :
    searchAt (p ++ t) = (searchAt t).map (fun q2 => (q2.1 + p.length, q2.2)) := by
  induction p with
  | nil =>
    simp only [List.nil_append, List.length_nil]
    cases searchAt t <;> simp
  | cons c p ih =>
    have hc : c ≠ '[' := fun he => hp (he ▸ List.mem_cons_self c p)
    have hp2 : '[' ∉ p := fun hm => hp (List.mem_cons_of_mem c hm)
    rw [List.cons_append, searchAt]
    have hml : matchLen (c :: (p ++ t)) = none := by
      rw [matchLen, if_neg (by simpa using hc)]
    rw [hml, ih hp2]
    cases searchAt t with
    | none => rfl
    | some q2 => simp [List.length_cons, Nat.add_assoc]

theorem closeBr_mem (cs : List Char) (k : Nat) (h : closeBr cs = some k) : ']' ∈ cs := by
  induction cs generalizing k with
  | nil => simp [closeBr] at h
  | cons c cs ih =>
    rw [closeBr] at h
    by_cases hc : c == ']'
    · have hce : c = ']' := by simpa using hc
      subst hce
      exact List.mem_cons_self _ _
    · rw [if_neg hc] at h
      by_cases hw : isWsChar c
      · rw [if_pos hw] at h
        cases hcb : closeBr cs with
        | none => rw [hcb] at h; simp at h
        | some m => exact List.mem_cons_of_mem c (ih m hcb)
      · rw [if_neg hw] at h
        simp at h

theorem lazyBody_mem (cs : List Char) (n : Nat) (h : lazyBody cs = some n) : ']' ∈ cs := by
  induction cs generalizing n with
  | nil => simp [lazyBody] at h
  | cons c cs ih =>
    rw [lazyBody] at h
    by_cases hc : c == '\x7d'
    · rw [if_pos hc] at h
      cases hcb : closeBr cs with
      | some k => exact List.mem_cons_of_mem c (closeBr_mem cs k hcb)
      | none =>
        rw [hcb] at h
        cases hlb : lazyBody cs with
        | none => rw [hlb] at h; simp at h
        | some m => exact List.mem_cons_of_mem c (ih m hlb)
    · rw [if_neg hc] at h
      cases hlb : lazyBody cs with
      | none => rw [hlb] at h; simp at h
      | some m => exact List.mem_cons_of_mem c (ih m hlb)

theorem skipWs_snd_sub (cs : List Char) : ∀ x ∈ (skipWsCount cs).2, x ∈ cs := by
  induction cs with
  | nil => intro x hx; simp [skipWsCount] at hx
  | cons c cs ih =>
    intro x hx
    by_cases hw : isWsChar c
    · simp only [skipWsCount, hw, if_true] at hx
      exact List.mem_cons_of_mem c (ih x hx)
    · simp only [skipWsCount, hw, Bool.false_eq_true, if_false] at hx
      exact hx

theorem matchLen_cons_facts (c : Char) (cs : List Char) (n : Nat)
    (h : matchLen (c :: cs) = some n) :
    c = '[' ∧ ']' ∈ cs ∧ '\x7b' ∈ cs := by
  rw [matchLen] at h
  by_cases hc : c == '['
  · refine ⟨by simpa using hc, ?_⟩
    rw [if_pos hc] at h
    cases hsk : skipWsCount cs with
    | mk k tail =>
      rw [hsk] at h
      have hsub : ∀ x ∈ tail, x ∈ cs := by
        intro x hx
        exact skipWs_snd_sub cs x (by rw [hsk]; exact hx)
      cases tail with
      | nil => simp at h
      | cons t0 ts =>
        cases ht : t0 == '\x7b'
        · have ht0 : t0 ≠ '\x7b' := by simpa using ht
          cases t0
          simp_all
        · have ht0 : t0 = '\x7b' := by simpa using ht
          subst ht0
          simp only at h
          cases hlb : lazyBody ts with
          | none => rw [hlb] at h; simp at h
          | some m =>
            refine ⟨?_, ?_⟩
            · exact hsub ']' (List.mem_cons_of_mem _ (lazyBody_mem ts m hlb))
            · exact hsub '\x7b' (List.mem_cons_self _ _)
  · rw [if_neg hc] at h
    simp at h

theorem searchAt_none_of_noOpenClose (cs : List Char) (h : hasOpenClose cs = false) :
    searchAt cs = none := by
  induction cs with
  | nil => rfl
  | cons c cs ih =>
    rw [hasOpenClose] at h
    simp only [Bool.or_eq_false_iff] at h
    rw [searchAt]
    cases hml : matchLen (c :: cs) with
    | none => rw [ih h.2]; rfl
    | some n =>
      obtain ⟨hc, hmem, _⟩ := matchLen_cons_facts c cs n hml
      subst hc
      exfalso
      simp at h
      exact h.1 hmem

theorem searchAt_none_of_noBrace (cs : List Char) (h : '\x7b' ∉ cs) :
    searchAt cs = none := by
  induction cs with
  | nil => rfl
  | cons c cs ih =>
    rw [searchAt]
    cases hml : matchLen (c :: cs) with
    | none =>
      rw [ih (fun hm => h (List.mem_cons_of_mem c hm))]
      rfl
    | some n =>
      obtain ⟨_, _, hbr⟩ := matchLen_cons_facts c cs n hml
      exact absurd (List.mem_cons_of_mem c hbr) h

/-! ### Claims about extraction (C5, C10) -/

/-- C5 (amended): `extract` returns the leftmost-lazy match of the
isolation pattern.  A well-formed array that fully matches the pattern
and is preceded by no `[` character is returned verbatim; but an array
whose body contains an earlier brace-then-optional-whitespace-then-`]`
sequence (for example inside a string value) is truncated there, so
"verbatim" does not hold unconditionally.  Text with no `[` later
followed by `]` fails extraction. -/
theorem extract_clean_array :
    (∀ p arr q : List Char, '[' ∉ p → matchLen arr = some arr.length →
      extract (String.mk (p ++ arr ++ q)) = some (String.mk arr))
  ∧ (∀ s : String, hasOpenClose s.data = false → extract s = none) := by
  constructor
  · intro p arr q hp harr
    unfold extract
    have hdata : (String.mk (p ++ arr ++ q)).data = p ++ (arr ++ q) := by
      simp [List.append_assoc]
    rw [hdata, searchAt_shift p (arr ++ q) hp]
    have harr2 : matchLen (arr ++ q) = some arr.length :=
      matchLen_append arr q arr.length harr
    have hs : searchAt (arr ++ q) = some (0, arr.length) := by
      cases arr with
      | nil => simp [matchLen] at harr
      | cons a as =>
        rw [List.cons_append, searchAt]
        rw [List.cons_append] at harr2
        rw [harr2]
    rw [hs]
    show some (String.mk (((p ++ (arr ++ q)).drop (0 + p.length)).take arr.length))
      = some (String.mk arr)
    rw [Nat.zero_add, List.drop_left, List.take_left]
  · intro s hs
    unfold extract
    rw [searchAt_none_of_noOpenClose s.data hs]
    rfl

/-- C5 witness: a clean single-record array embedded in prose is
returned verbatim, and a response with no bracketed substring fails. -/
theorem extract_clean_array_witness :
    extract "Noise [\x7b\"a\":\"1\"\x7d] end" = some "[\x7b\"a\":\"1\"\x7d]"
  ∧ extract "Sorry, I cannot read this." = none := by
  constructor
  · have h := extract_clean_array.1 "Noise ".data "[\x7b\"a\":\"1\"\x7d]".data " end".data
      (by decide) (by decide)
    have e1 : String.mk ("Noise ".data ++ "[\x7b\"a\":\"1\"\x7d]".data ++ " end".data)
        = "Noise [\x7b\"a\":\"1\"\x7d] end" := by decide
    have e2 : String.mk "[\x7b\"a\":\"1\"\x7d]".data = "[\x7b\"a\":\"1\"\x7d]" := by decide
    rw [e1, e2] at h
    exact h
  · exact extract_clean_array.2 "Sorry, I cannot read this." (by decide)

/-- C5 counterexample: this text is itself exactly one well-formed JSON
array of objects (the record reader accepts it in full), yet `extract`
returns a proper truncation of it — the lazy pattern stops at the
brace-bracket sequence inside the string value — refuting "returns that
array substring verbatim". -/
theorem extract_truncates_brace_bracket :
    readJsonRecords "[\x7b\"a\":\"\x7d]\"\x7d]" = some [[("a", JVal.str "\x7d]")]]
  ∧ extract "[\x7b\"a\":\"\x7d]\"\x7d]" = some "[\x7b\"a\":\"\x7d]"
  ∧ "[\x7b\"a\":\"\x7d]" ≠ "[\x7b\"a\":\"\x7d]\"\x7d]" := by decide

/-- C10: a response text containing no `{` at all — in particular one
whose only bracketed substring is the empty array "[]" — fails
extraction, because the isolation pattern requires a brace-delimited
object between the brackets; zero-record responses are rejected at the
extraction stage rather than normalized into an empty table. -/
theorem extract_requires_object (s : String) (h : '\x7b' ∉ s.data) :
    extract s = none := by
  unfold extract
  rw [searchAt_none_of_noBrace s.data h]
  rfl

/-- C10 witness: the response "[]" is rejected by extraction despite
being a syntactically valid JSON array. -/
theorem extract_requires_object_witness :
    '\x7b' ∉ "[]".data ∧ extract "[]" = none :=
  ⟨by decide, extract_requires_object "[]" (by decide)⟩

/-! ### Claims about prompt resolution (C4) -/

/-- C4 counterexample: the claim routes any id containing "MPI" in any
letter case (via the upper-cased form) to the MPI schema, but
`safety.py` matches case-sensitively: "mpi.xlsx" falls through to the
default document-parser prompt, and `main.py` has no MPI rule at all. -/
theorem resolve_case_sensitivity_cex :
    resolveSafety "mpi.xlsx" = Prompt.genericDoc
  ∧ inChars "MPI".data (upperAscii "mpi.xlsx").data = true
  ∧ Prompt.genericDoc ≠ Prompt.mpi
  ∧ resolveMain "MPI.xlsx" = Prompt.twoColumn := by decide

/-- C4 (amended): prompt resolution is total and deterministic with
priority-ordered substring tests, but the casing differs between the
variants: `main.py` upper-cases the id for its single GRINDING test and
sends everything else to the two-column schema (no MPI rule), while
`safety.py` tests MPI first, then SHOT BLASTING or GRINDING,
case-sensitively on the raw id, with unmatched ids resolving to the
default document-parser prompt rather than failing. -/
theorem resolve_total_characterization (t : String) :
    (resolveMain t = Prompt.grinding ↔ inChars "GRINDING".data (upperAscii t).data = true)
  ∧ (resolveMain t = Prompt.twoColumn ↔ inChars "GRINDING".data (upperAscii t).data = false)
  ∧ (resolveSafety t = Prompt.mpi ↔ inChars "MPI".data t.data = true)
  ∧ (resolveSafety t = Prompt.twoColumn ↔
      (inChars "MPI".data t.data = false ∧
        (inChars "SHOT BLASTING".data t.data || inChars "GRINDING".data t.data) = true))
  ∧ (resolveSafety t = Prompt.genericDoc ↔
      (inChars "MPI".data t.data = false ∧
        (inChars "SHOT BLASTING".data t.data || inChars "GRINDING".data t.data) = false)) := by
  unfold resolveMain resolveSafety
  by_cases h1 : inChars "GRINDING".data (upperAscii t).data = true <;>
    by_cases h2 : inChars "MPI".data t.data = true <;>
      by_cases h3 : (inChars "SHOT BLASTING".data t.data
          || inChars "GRINDING".data t.data) = true <;>
        simp [h1, h2, h3]

/-- C4 witness: an id containing both "MPI" and "GRINDING" resolves to
the MPI schema in the safety variant — priority order is respected. -/
theorem resolve_total_characterization_witness :
    resolveSafety "MPI GRINDING.xlsx" = Prompt.mpi :=
  ((resolve_total_characterization "MPI GRINDING.xlsx").2.2.1).mpr (by decide)

/-! ### Claims about the pipeline (C8, C9) -/

/-- C8: when the OCR response contains no extractable array, the request
terminates with the extraction-stage error having performed no
filesystem side effect: no debug dump, no output directory, no template
copy, no workbook save — failure is atomic with respect to workbook
creation. -/
theorem upload_extraction_failure_atomic (name : String) (formats : List String)
    (resp : String) (tmpl : Worksheet)
    (hname : (name == "") = false) (hex : extract resp = none) :
    upload true name formats resp tmpl = ([], Outcome.extractionError) := by
  simp [upload, hname, hex]

/-- C8 witness: scenario C — the response "Sorry, I cannot read this."
produces the extraction error and an empty effect trace. -/
theorem upload_extraction_failure_atomic_witness :
    upload true "GRINDING.xlsx" ["GRINDING.xlsx"] "Sorry, I cannot read this."
        { cells := [], merged := [] }
      = ([], Outcome.extractionError) :=
  upload_extraction_failure_atomic "GRINDING.xlsx" ["GRINDING.xlsx"]
    "Sorry, I cannot read this." { cells := [], merged := [] } (by decide) (by decide)

/-- C9 counterexample: with a template identifier naming no file in the
template directory, the request is not answered with the input-stage
client error; it passes input validation, proceeds through extraction
(writing the debug artifact), and dies at the template copy. -/
theorem upload_missing_template_cex :
    upload true "MISSING.xlsx" ["SHOT BLASTING.xlsx", "GRINDING.xlsx", "MPI.xlsx"]
        "[\x7b\"Qty\":\"190\"\x7d]" { cells := [], merged := [] }
      = ([Effect.writeDebug "[\x7b\"Qty\":\"190\"\x7d]", Effect.makeOutputDir],
          Outcome.copyCrash)
  ∧ Outcome.copyCrash ≠ Outcome.badRequest := by decide

/-- C9 (amended): a template identifier that corresponds to no file in
the template directory is not detected early: whenever the upstream
stages succeed, the request runs the whole extraction pipeline and fails
only at the template-copy step with an unhandled server-side crash, not
a client error. -/
theorem upload_missing_template_late_crash (name : String) (formats : List String)
    (resp js : String) (recs : List JRec) (tmpl : Worksheet)
    (hname : (name == "") = false)
    (habsent : formats.contains name = false)
    (hex : extract resp = some js)
    (hparse : readJsonRecords js = some recs) :
    upload true name formats resp tmpl
      = ([Effect.writeDebug js, Effect.makeOutputDir], Outcome.copyCrash) := by
  have habs2 : name ∉ formats := by simpa using habsent
  simp [upload, hname, hex, hparse, habs2]

/-- C9 witness: the late-crash behaviour at a concrete request whose
template file is absent. -/
theorem upload_missing_template_late_crash_witness :
    upload true "UNKNOWN.xlsx" ["GRINDING.xlsx"] "junk [\x7b\"a\": 1\x7d] tail"
        { cells := [], merged := [] }
      = ([Effect.writeDebug "[\x7b\"a\": 1\x7d]", Effect.makeOutputDir],
          Outcome.copyCrash) :=
  upload_missing_template_late_crash "UNKNOWN.xlsx" ["GRINDING.xlsx"]
    "junk [\x7b\"a\": 1\x7d] tail" "[\x7b\"a\": 1\x7d]" [[("a", JVal.int 1)]]
    { cells := [], merged := [] } (by decide) (by decide) (by decide) (by decide)

end ExcelFill
